import Mathlib

/-!
Verification of the response-normalization core and helpers of the
multi-model aggregator front-end (src/streamlit-app/app.py).

JSON values are modelled as an inductive type; Python dictionaries are
modelled as insertion-ordered association lists (Python 3.7+ dicts preserve
insertion order and have unique keys), Python `or`-chains over `dict.get`
results are modelled through an explicit truthiness predicate, and
`json.dumps(..., indent=2)` / `str(...)` are given executable models.
-/

/-- Decoded JSON value, as produced by `resp.json()` in the source.
Numbers are modelled as integers (no claim under scrutiny depends on
float-specific behaviour). An object is its insertion-ordered key/value
list. -/
inductive Json where
  | null : Json
  | bool (b : Bool) : Json
  | num (n : Int) : Json
  | str (s : String) : Json
  | arr (items : List Json) : Json
  | obj (kvs : List (String × Json)) : Json

/-- Python `d[k]` / `k in d` lookup on the association-list model of a dict:
the value at the first occurrence of the key, `none` when absent. -/
def dictGet : List (String × Json) → String → Option Json
  | [], _ => none
  | (k, v) :: rest, key => if k = key then some v else dictGet rest key

/-- Python truthiness of a decoded JSON value: `None`, `False`, `0`, `""`,
`[]` and `{}` are falsy, everything else truthy. -/
def truthy : Json → Bool
  | Json.null => false
  | Json.bool b => b
  | Json.num n => n != 0
  | Json.str s => s != ""
  | Json.arr items => !items.isEmpty
  | Json.obj kvs => !kvs.isEmpty

/-- Python `a or b` where `a` is a `dict.get` result (`None` when the key is
absent): yields the value when present and truthy, otherwise the fallback. -/
def pyOr (o : Option Json) (fallback : Json) : Json :=
  match o with
  | some v => if truthy v then v else fallback
  | none => fallback

def spaces (n : Nat) : String :=
  String.mk (List.replicate n ' ')

/-- One hex digit, lower case, for `\uXXXX` escapes. -/
def hexDigit (n : Nat) : Char :=
  if n < 10 then Char.ofNat (48 + n) else Char.ofNat (87 + n)

/-- JSON string escaping as performed by `json.dumps` on one character. -/
def jsonEscapeChar (c : Char) : String :=
  if c = '"' then "\\\""
  else if c = '\\' then "\\\\"
  else if c = '\n' then "\\n"
  else if c = '\t' then "\\t"
  else if c = '\r' then "\\r"
  else if c = Char.ofNat 8 then "\\b"
  else if c = Char.ofNat 12 then "\\f"
  else if c.toNat < 32 then
    "\\u00" ++ String.mk [hexDigit (c.toNat / 16), hexDigit (c.toNat % 16)]
  else String.singleton c

/-- A JSON string literal with surrounding double quotes, as in `json.dumps`. -/
def jsonQuote (s : String) : String :=
  "\"" ++ String.join (s.toList.map jsonEscapeChar) ++ "\""

mutual

/-- Python `json.dumps(v, indent=2)` rendered at nesting level `lvl` (the source
always calls it at level 0). With an indent, Python separates items by
`",\n"` and keys by `": "`; empty containers render with no newline. -/
def jsonDumps : Json → Nat → String
  | Json.null, _ => "null"
  | Json.bool true, _ => "true"
  | Json.bool false, _ => "false"
  | Json.num n, _ => toString n
  | Json.str s, _ => jsonQuote s
  | Json.arr items, lvl =>
    if items.isEmpty then "[]"
    else "[\n" ++ String.intercalate ",\n" (jsonDumpsItems items (lvl + 1)) ++
      "\n" ++ spaces (2 * lvl) ++ "]"
  | Json.obj kvs, lvl =>
    if kvs.isEmpty then "\x7b\x7d"
    else "\x7b\n" ++ String.intercalate ",\n" (jsonDumpsEntries kvs (lvl + 1)) ++
      "\n" ++ spaces (2 * lvl) ++ "\x7d"

def jsonDumpsItems : List Json → Nat → List String
  | [], _ => []
  | v :: rest, lvl => (spaces (2 * lvl) ++ jsonDumps v lvl) :: jsonDumpsItems rest lvl

def jsonDumpsEntries : List (String × Json) → Nat → List String
  | [], _ => []
  | (k, v) :: rest, lvl =>
    (spaces (2 * lvl) ++ jsonQuote k ++ ": " ++ jsonDumps v lvl) :: jsonDumpsEntries rest lvl

end

/-- Python `repr` escaping of one string character, given the chosen quote
character. -/
def pyReprChar (q : Char) (c : Char) : String :=
  if c = '\\' then "\\\\"
  else if c = q then "\\" ++ String.singleton q
  else if c = '\n' then "\\n"
  else if c = '\t' then "\\t"
  else if c = '\r' then "\\r"
  else if c.toNat < 32 then
    "\\x" ++ String.mk [hexDigit (c.toNat / 16), hexDigit (c.toNat % 16)]
  else String.singleton c

/-- Python `repr` of a string: single-quoted, switching to double quotes when
the string contains a single quote but no double quote. -/
def pyReprStr (s : String) : String :=
  let q : Char :=
    if s.contains (Char.ofNat 39) && !s.contains '"' then '"' else Char.ofNat 39
  String.singleton q ++ String.join (s.toList.map (pyReprChar q)) ++ String.singleton q

mutual

/-- Python `repr` of a decoded JSON value. -/
def pyRepr : Json → String
  | Json.null => "None"
  | Json.bool true => "True"
  | Json.bool false => "False"
  | Json.num n => toString n
  | Json.str s => pyReprStr s
  | Json.arr items => "[" ++ String.intercalate ", " (pyReprItems items) ++ "]"
  | Json.obj kvs => "\x7b" ++ String.intercalate ", " (pyReprEntries kvs) ++ "\x7d"

def pyReprItems : List Json → List String
  | [] => []
  | v :: rest => pyRepr v :: pyReprItems rest

def pyReprEntries : List (String × Json) → List String
  | [] => []
  | (k, v) :: rest => (pyReprStr k ++ ": " ++ pyRepr v) :: pyReprEntries rest

end

/-- Python `str` of a decoded JSON value: a string is itself, anything else
is its `repr` (which coincides with `str` on None/bool/int and containers). -/
def pyStr : Json → String
  | Json.str s => s
  | v => pyRepr v

/-- The uniform record shape `{"model": ..., "response": ..., "latency": ...}`
built by `normalize_response`. Fields are arbitrary Python values in the
source (e.g. a truthy non-string `"response"` value is stored as read), so
each field is a `Json`. -/
structure ResultRecord where
  model : Json
  response : Json
  latency : Json

/-- Chain `val.get("response") or val.get("text") or json.dumps(val, indent=2)`
where `whole` is the mapping `val` itself. -/
def extractResponse (vkvs : List (String × Json)) (whole : Json) : Json :=
  pyOr (dictGet vkvs "response")
    (pyOr (dictGet vkvs "text") (Json.str (jsonDumps whole 0)))

/-- Chain `val.get("latency") or val.get("latencyMs") or val.get("latency_ms") or 0`. -/
def extractLatency (vkvs : List (String × Json)) : Json :=
  pyOr (dictGet vkvs "latency")
    (pyOr (dictGet vkvs "latencyMs")
      (pyOr (dictGet vkvs "latency_ms") (Json.num 0)))

/-- One record of the dictionary (model → data) branch, lines 184-206 of
app.py: the key is the model, a dict value goes through the response/latency
extraction chains, any other value is stringified with latency 0. -/
def normEntry : String × Json → ResultRecord
  | (model, Json.obj vkvs) =>
    { model := Json.str model
      response := extractResponse vkvs (Json.obj vkvs)
      latency := extractLatency vkvs }
  | (model, val) =>
    { model := Json.str model, response := Json.str (pyStr val), latency := Json.num 0 }

/-- One record of the list branch, lines 210-224 of app.py: a dict item uses
`item.get("model", "unknown")` and the same extraction chains, any other
item gets the sentinel model `"result"`. -/
def normItem : Json → ResultRecord
  | Json.obj ikvs =>
    { model := (dictGet ikvs "model").getD (Json.str "unknown")
      response := extractResponse ikvs (Json.obj ikvs)
      latency := extractLatency ikvs }
  | item =>
    { model := Json.str "result", response := Json.str (pyStr item), latency := Json.num 0 }

/-- Lines 179-181 of app.py: `if isinstance(body, dict) and "responses" in
body: body = body["responses"]` — a single, non-recursive unwrap. -/
def unwrapEnvelope (body : Json) : Json :=
  match body with
  | Json.obj kvs =>
    match dictGet kvs "responses" with
    | some v => v
    | none => body
  | _ => body

/-- Function `normalize_response` (app.py lines 168-231): unwrap the `"responses"`
envelope once, then build one record per dict entry (in insertion order),
or one record per list item (in order), or a single fallback record for any
other value. -/
def normalize_response (body : Json) : List ResultRecord :=
  match unwrapEnvelope body with
  | Json.obj kvs => kvs.map normEntry
  | Json.arr items => items.map normItem
  | b => [{ model := Json.str "result", response := Json.str (pyStr b), latency := Json.num 0 }]

/-- Outcome of one press of the run button: either a success path that
normalizes and renders records, or a failure path that surfaces the raw
status code and body text. -/
inductive RunOutcome where
  | success (records : List ResultRecord) : RunOutcome
  | failure (statusCode : Nat) (bodyText : String) : RunOutcome

/-- The response-handling tail of the run-button handler (app.py lines
286-312): a 2xx status decodes the body (falling back to
`{"raw": resp.text}` on decode failure) and normalizes it; any other status
reports the status code and the raw body text, producing no record list.
`decoded` is `some` of the decoded JSON body, `none` on decode failure. -/
def handle_response (statusCode : Nat) (bodyText : String) (decoded : Option Json) : RunOutcome :=
  if 200 ≤ statusCode ∧ statusCode < 300 then
    RunOutcome.success (normalize_response (decoded.getD (Json.obj [("raw", Json.str bodyText)])))
  else
    RunOutcome.failure statusCode bodyText

/-- The standard base64 alphabet, in value order. -/
def b64alphabet : List Char :=
  "ABCDEFGHIJKLMNOPQRSTUVWXYZabcdefghijklmnopqrstuvwxyz0123456789+/".toList

/-- The base64 digit for a 6-bit value. -/
def b64char (n : Nat) : Char :=
  b64alphabet.getD n 'A'

/-- The 6-bit value of a base64 digit (64 for a character outside the
alphabet). -/
def b64val (c : Char) : Nat :=
  b64alphabet.findIdx (fun d => d = c)

/-- Python `base64.b64encode` on a byte sequence, with `=` padding, three input
bytes per four output characters. -/
def b64encode : List Nat → List Char
  | [] => []
  | [a] => [b64char (a / 4), b64char (a % 4 * 16), '=', '=']
  | [a, b] => [b64char (a / 4), b64char (a % 4 * 16 + b / 16), b64char (b % 16 * 4), '=']
  | a :: b :: c :: rest =>
    b64char (a / 4) :: b64char (a % 4 * 16 + b / 16) ::
      b64char (b % 16 * 4 + c / 64) :: b64char (c % 64) :: b64encode rest

/-- Standard base64 decoding of a padded digit string back to bytes (the
mathematical inverse the round-trip claim is stated against). -/
def b64decode : List Char → List Nat
  | w :: x :: y :: z :: rest =>
    if y = '=' then [b64val w * 4 + b64val x / 16]
    else if z = '=' then
      [b64val w * 4 + b64val x / 16, b64val x % 16 * 16 + b64val y / 4]
    else
      (b64val w * 4 + b64val x / 16) :: (b64val x % 16 * 16 + b64val y / 4) ::
        (b64val y % 4 * 64 + b64val z) :: b64decode rest
  | _ => []

/-- The extension-to-MIME table of `image_to_data_url` (app.py lines
143-149), a dict `.get` with default `"image/png"`. -/
def mimeFor (ext : String) : String :=
  if ext = "jpg" then "image/jpeg"
  else if ext = "jpeg" then "image/jpeg"
  else if ext = "png" then "image/png"
  else if ext = "gif" then "image/gif"
  else if ext = "webp" then "image/webp"
  else "image/png"

/-- Python `.lower()` on one character (ASCII range, as filename extensions
are). -/
def lowerChar (c : Char) : Char :=
  if 65 ≤ c.toNat ∧ c.toNat ≤ 90 then Char.ofNat (c.toNat + 32) else c

/-- Python `s.split(".")`: split at every dot, keeping empty segments
(`"a..b"` gives `["a", "", "b"]`, `""` gives `[""]`). -/
def splitDot : List Char → List (List Char)
  | [] => [[]]
  | c :: rest =>
    if c = '.' then [] :: splitDot rest
    else
      match splitDot rest with
      | [] => [[c]]
      | seg :: segs => (c :: seg) :: segs

/-- Python `filename.split(".")[-1].lower()`: the lowercased final dot-separated
segment of the filename (the whole filename when it has no dot). -/
def extOf (filename : String) : String :=
  String.mk (((splitDot filename.toList).getLastD []).map lowerChar)

/-- Function `image_to_data_url` (app.py lines 141-152): pick a MIME type from the
lowercased extension, base64-encode the bytes, and build the data URL. -/
def image_to_data_url (data : List Nat) (filename : String) : String :=
  let mime := mimeFor (extOf filename)
  let b64 := String.mk (b64encode data)
  "data:" ++ mime ++ ";base64," ++ b64

example : normalize_response (Json.obj []) = [] := rfl
example :
    normalize_response (Json.obj [("gpt4o", Json.obj [("response", Json.str "hi"), ("latency", Json.num 120)])]) =
      [{ model := Json.str "gpt4o", response := Json.str "hi", latency := Json.num 120 }] := rfl
example :
    normalize_response (Json.obj [("responses", Json.arr [Json.obj [("model", Json.str "w"), ("text", Json.str "hello"), ("latencyMs", Json.num 50)]])]) =
      [{ model := Json.str "w", response := Json.str "hello", latency := Json.num 50 }] := rfl
example :
    normalize_response (Json.str "plain string") =
      [{ model := Json.str "result", response := Json.str "plain string", latency := Json.num 0 }] := rfl
example :
    jsonDumps (Json.obj [("response", Json.str "")]) 0 =
      "\x7b\n  \"response\": \"\"\n\x7d" := rfl

/-- A value that is neither a keyed mapping nor a list. -/
def isScalar : Json → Bool
  | Json.obj _ => false
  | Json.arr _ => false
  | _ => true

/-- A `dict.get` result that Python treats as falsy: either the key is
absent or its value is falsy. -/
def optFalsy (o : Option Json) : Prop :=
  ∀ v, o = some v → truthy v = false

lemma pyOr_falsy (o : Option Json) (fb : Json) (h : optFalsy o) : pyOr o fb = fb := by
  cases o with
  | none => rfl
  | some v => simp [pyOr, h v rfl]

lemma pyOr_truthy (o : Option Json) (fb v : Json) (h : o = some v)
    (ht : truthy v = true) : pyOr o fb = v := by
  simp [pyOr, h, ht]

lemma normEntry_model (p : String × Json) : (normEntry p).model = Json.str p.1 := by
  rcases p with ⟨k, v⟩
  cases v <;> rfl

lemma normalize_eq_core (body : Json) :
    normalize_response body =
      (match unwrapEnvelope body with
        | Json.obj kvs => kvs.map normEntry
        | Json.arr items => items.map normItem
        | b =>
          [{ model := Json.str "result", response := Json.str (pyStr b),
             latency := Json.num 0 }]) := rfl

lemma unwrap_obj_noresp (kvs : List (String × Json))
    (h : dictGet kvs "responses" = none) :
    unwrapEnvelope (Json.obj kvs) = Json.obj kvs := by
  show (match dictGet kvs "responses" with
    | some v => v
    | none => Json.obj kvs) = Json.obj kvs
  rw [h]

lemma normalize_obj (kvs : List (String × Json)) (h : dictGet kvs "responses" = none) :
    normalize_response (Json.obj kvs) = kvs.map normEntry := by
  rw [normalize_eq_core, unwrap_obj_noresp kvs h]

lemma normalize_arr (items : List Json) :
    normalize_response (Json.arr items) = items.map normItem := rfl

lemma normalize_single_obj (m : String) (vkvs : List (String × Json))
    (hm : m ≠ "responses") :
    normalize_response (Json.obj [(m, Json.obj vkvs)]) = [normEntry (m, Json.obj vkvs)] := by
  rw [normalize_obj]
  · rfl
  · simp [dictGet, hm]

/-- C1: `normalize_response` is total — for every decoded JSON value (and
the `{"raw": text}` wrapper a raw string arrives in) it returns a list of
records. Every operation of the source function (`dict.get`, `str`,
`json.dumps`) is total on this domain, so the shallow embedding is a total
function and never raises. -/
theorem normalize_response_total (body : Json) :
    ∃ records : List ResultRecord, normalize_response body = records :=
  ⟨normalize_response body, rfl⟩

/-- C2, counterexample: `normalize_response {}` is the empty list, so the
output is not always non-empty; and a truthy non-string `"response"` value
(here the number 5) is stored as read, so the response field is not always
a string. -/
theorem normalize_nonempty_cex :
    normalize_response (Json.obj []) = [] ∧
    (normalize_response (Json.obj [("m", Json.obj [("response", Json.num 5)])])).map
      (fun r => r.response) = [Json.num 5] :=
  ⟨rfl, rfl⟩

/-- C2, amended: `normalize_response` yields a list of records (each with
its three fields populated by construction) that is empty exactly when the
input, after envelope unwrap, is an empty mapping or an empty list. -/
theorem normalize_empty_iff (body : Json) :
    normalize_response body = [] ↔
      unwrapEnvelope body = Json.obj [] ∨ unwrapEnvelope body = Json.arr [] := by
  unfold normalize_response
  cases h : unwrapEnvelope body <;> simp [h]

/-- C3, counterexample: unwrapping is not transparent when the wrapped value
itself is a mapping with a `"responses"` key. For `X = {"responses": 5}`,
`normalize_response({"responses": X})` treats `X` as a model map (one record
with model `"responses"`), while `normalize_response(X)` unwraps again and
produces the scalar-fallback record with model `"result"`. -/
theorem unwrap_envelope_cex :
    normalize_response (Json.obj [("responses", Json.obj [("responses", Json.num 5)])]) ≠
      normalize_response (Json.obj [("responses", Json.num 5)]) := by
  intro h
  have h2 := congrArg (fun l => l.map (fun r => r.model)) h
  simp only [normalize_response, unwrapEnvelope, dictGet] at h2
  simp [normEntry, pyStr, pyRepr] at h2

/-- C3, amended: unwrapping the envelope is transparent for every `X` that
is not itself a mapping containing a `"responses"` key (the unwrap is one
level only, so such an `X` would be unwrapped a second time on the right). -/
theorem unwrap_envelope_transparent (X : Json)
    (h : ∀ kvs, X = Json.obj kvs → dictGet kvs "responses" = none) :
    normalize_response (Json.obj [("responses", X)]) = normalize_response X := by
  have hw : unwrapEnvelope (Json.obj [("responses", X)]) = X := by
    simp [unwrapEnvelope, dictGet]
  have hu : unwrapEnvelope X = X := by
    cases X with
    | obj kvs => simp [unwrapEnvelope, h kvs rfl]
    | null => rfl
    | bool b => rfl
    | num n => rfl
    | str s => rfl
    | arr items => rfl
  unfold normalize_response
  rw [hw, hu]

/-- C3, witness for the amended theorem at `X = [1]`. -/
theorem unwrap_envelope_transparent_w :
    normalize_response (Json.obj [("responses", Json.arr [Json.num 1])]) =
      normalize_response (Json.arr [Json.num 1]) :=
  unwrap_envelope_transparent (Json.arr [Json.num 1]) (by intro kvs h; cases h)

/-- C4: for a mapping without a `"responses"` key the output is exactly one
record per entry in key order (the models being the keys in order), and for
a list exactly one record per element in element order — no reordering,
deduplication, or filtering. -/
theorem normalize_preserves_shape (kvs : List (String × Json)) (items : List Json)
    (h : dictGet kvs "responses" = none) :
    normalize_response (Json.obj kvs) = kvs.map normEntry ∧
    (normalize_response (Json.obj kvs)).length = kvs.length ∧
    (normalize_response (Json.obj kvs)).map (fun r => r.model) =
      kvs.map (fun p => Json.str p.1) ∧
    normalize_response (Json.arr items) = items.map normItem ∧
    (normalize_response (Json.arr items)).length = items.length := by
  have h1 := normalize_obj kvs h
  have h2 := normalize_arr items
  refine ⟨h1, ?_, ?_, h2, ?_⟩
  · rw [h1, List.length_map]
  · rw [h1, List.map_map]
    simp [Function.comp, normEntry_model]
  · rw [h2, List.length_map]

/-- C4, witness at `M = {"a": 1}`, `L = [2]`. -/
theorem normalize_preserves_shape_w :
    dictGet [("a", Json.num 1)] "responses" = none ∧
    ((normalize_response (Json.obj [("a", Json.num 1)])).map (fun r => r.model) =
      [Json.str "a"] ∧
    (normalize_response (Json.arr [Json.num 2])).length = 1) :=
  ⟨rfl,
    (normalize_preserves_shape [("a", Json.num 1)] [Json.num 2] rfl).2.2.1,
    (normalize_preserves_shape [("a", Json.num 1)] [Json.num 2] rfl).2.2.2.2⟩

/-- C5, counterexample: a present but falsy `"response"` value is skipped by
the Python `or` chain. For `{"m": {"response": ""}}` the claim requires the
record's response to be `""` (the value of the present field), but the code
falls through to the pretty-printed JSON of the whole mapping. -/
theorem response_field_cex :
    (normalize_response (Json.obj [("m", Json.obj [("response", Json.str "")])])).map
      (fun r => r.response) =
      [Json.str "\x7b\n  \"response\": \"\"\n\x7d"] ∧
    Json.str "\x7b\n  \"response\": \"\"\n\x7d" ≠ Json.str "" := by
  refine ⟨rfl, ?_⟩
  intro h
  injection h with h2
  exact absurd h2 (by decide)

/-- C5, amended: the record's response is the value of `"response"` when
that field is present and truthy, else the value of `"text"` when present
and truthy, and the pretty-printed indented JSON of the whole mapping when
both are absent or falsy; a truthy chosen value is written as read with no
type coercion. This holds in both the mapping case and the list-element
case. -/
theorem response_field_selection (m : String) (vkvs : List (String × Json))
    (hm : m ≠ "responses") :
    (∀ v, dictGet vkvs "response" = some v → truthy v = true →
      (normalize_response (Json.obj [(m, Json.obj vkvs)])).map (fun r => r.response) = [v] ∧
      (normalize_response (Json.arr [Json.obj vkvs])).map (fun r => r.response) = [v]) ∧
    (optFalsy (dictGet vkvs "response") →
      ∀ v, dictGet vkvs "text" = some v → truthy v = true →
        (normalize_response (Json.obj [(m, Json.obj vkvs)])).map (fun r => r.response) = [v] ∧
        (normalize_response (Json.arr [Json.obj vkvs])).map (fun r => r.response) = [v]) ∧
    (optFalsy (dictGet vkvs "response") → optFalsy (dictGet vkvs "text") →
      (normalize_response (Json.obj [(m, Json.obj vkvs)])).map (fun r => r.response) =
        [Json.str (jsonDumps (Json.obj vkvs) 0)] ∧
      (normalize_response (Json.arr [Json.obj vkvs])).map (fun r => r.response) =
        [Json.str (jsonDumps (Json.obj vkvs) 0)]) := by
  have hobj : (normalize_response (Json.obj [(m, Json.obj vkvs)])).map (fun r => r.response) =
      [extractResponse vkvs (Json.obj vkvs)] := by
    rw [normalize_single_obj m vkvs hm]
    rfl
  have harr : (normalize_response (Json.arr [Json.obj vkvs])).map (fun r => r.response) =
      [extractResponse vkvs (Json.obj vkvs)] := rfl
  refine ⟨?_, ?_, ?_⟩
  · intro v hv ht
    have he : extractResponse vkvs (Json.obj vkvs) = v := by
      unfold extractResponse
      rw [pyOr_truthy _ _ v hv ht]
    rw [hobj, harr, he]
    exact ⟨rfl, rfl⟩
  · intro hf v hv ht
    have he : extractResponse vkvs (Json.obj vkvs) = v := by
      unfold extractResponse
      rw [pyOr_falsy _ _ hf, pyOr_truthy _ _ v hv ht]
    rw [hobj, harr, he]
    exact ⟨rfl, rfl⟩
  · intro hf1 hf2
    have he : extractResponse vkvs (Json.obj vkvs) =
        Json.str (jsonDumps (Json.obj vkvs) 0) := by
      unfold extractResponse
      rw [pyOr_falsy _ _ hf1, pyOr_falsy _ _ hf2]
    rw [hobj, harr, he]
    exact ⟨rfl, rfl⟩

/-- C5, witness at `{"m": {"response": "hi"}}`. -/
theorem response_field_selection_w :
    ("m" : String) ≠ "responses" ∧
    dictGet [("response", Json.str "hi")] "response" = some (Json.str "hi") ∧
    truthy (Json.str "hi") = true ∧
    (normalize_response (Json.obj [("m", Json.obj [("response", Json.str "hi")])])).map
      (fun r => r.response) = [Json.str "hi"] := by
  refine ⟨by decide, rfl, rfl, ?_⟩
  exact ((response_field_selection "m" [("response", Json.str "hi")] (by decide)).1
    (Json.str "hi") rfl rfl).1

/-- C6, counterexample: a truthy non-numeric latency value is written as
read, not defaulted to 0. For `{"m": {"latency": "fast"}}` the record's
latency is the string `"fast"`, contradicting both "non-negative number"
and "defaulting to 0 when the extracted value is non-numeric". -/
theorem latency_field_cex :
    (normalize_response (Json.obj [("m", Json.obj [("latency", Json.str "fast")])])).map
      (fun r => r.latency) = [Json.str "fast"] ∧
    Json.str "fast" ≠ Json.num 0 := by
  exact ⟨rfl, by intro h; cases h⟩

/-- C6, amended: the record's latency is the first present-and-truthy value
among the fields `"latency"`, `"latencyMs"`, `"latency_ms"`, taken as read
(whatever its type or sign), and 0 when all three are absent or falsy. This
holds in both the mapping case and the list-element case. -/
theorem latency_field_selection (m : String) (vkvs : List (String × Json))
    (hm : m ≠ "responses") :
    (∀ v, dictGet vkvs "latency" = some v → truthy v = true →
      (normalize_response (Json.obj [(m, Json.obj vkvs)])).map (fun r => r.latency) = [v] ∧
      (normalize_response (Json.arr [Json.obj vkvs])).map (fun r => r.latency) = [v]) ∧
    (optFalsy (dictGet vkvs "latency") →
      ∀ v, dictGet vkvs "latencyMs" = some v → truthy v = true →
        (normalize_response (Json.obj [(m, Json.obj vkvs)])).map (fun r => r.latency) = [v] ∧
        (normalize_response (Json.arr [Json.obj vkvs])).map (fun r => r.latency) = [v]) ∧
    (optFalsy (dictGet vkvs "latency") → optFalsy (dictGet vkvs "latencyMs") →
      ∀ v, dictGet vkvs "latency_ms" = some v → truthy v = true →
        (normalize_response (Json.obj [(m, Json.obj vkvs)])).map (fun r => r.latency) = [v] ∧
        (normalize_response (Json.arr [Json.obj vkvs])).map (fun r => r.latency) = [v]) ∧
    (optFalsy (dictGet vkvs "latency") → optFalsy (dictGet vkvs "latencyMs") →
      optFalsy (dictGet vkvs "latency_ms") →
      (normalize_response (Json.obj [(m, Json.obj vkvs)])).map (fun r => r.latency) =
        [Json.num 0] ∧
      (normalize_response (Json.arr [Json.obj vkvs])).map (fun r => r.latency) =
        [Json.num 0]) := by
  have hobj : (normalize_response (Json.obj [(m, Json.obj vkvs)])).map (fun r => r.latency) =
      [extractLatency vkvs] := by
    rw [normalize_single_obj m vkvs hm]
    rfl
  have harr : (normalize_response (Json.arr [Json.obj vkvs])).map (fun r => r.latency) =
      [extractLatency vkvs] := rfl
  refine ⟨?_, ?_, ?_, ?_⟩
  · intro v hv ht
    have he : extractLatency vkvs = v := by
      unfold extractLatency
      rw [pyOr_truthy _ _ v hv ht]
    rw [hobj, harr, he]
    exact ⟨rfl, rfl⟩
  · intro hf1 v hv ht
    have he : extractLatency vkvs = v := by
      unfold extractLatency
      rw [pyOr_falsy _ _ hf1, pyOr_truthy _ _ v hv ht]
    rw [hobj, harr, he]
    exact ⟨rfl, rfl⟩
  · intro hf1 hf2 v hv ht
    have he : extractLatency vkvs = v := by
      unfold extractLatency
      rw [pyOr_falsy _ _ hf1, pyOr_falsy _ _ hf2, pyOr_truthy _ _ v hv ht]
    rw [hobj, harr, he]
    exact ⟨rfl, rfl⟩
  · intro hf1 hf2 hf3
    have he : extractLatency vkvs = Json.num 0 := by
      unfold extractLatency
      rw [pyOr_falsy _ _ hf1, pyOr_falsy _ _ hf2, pyOr_falsy _ _ hf3]
    rw [hobj, harr, he]
    exact ⟨rfl, rfl⟩

/-- C6, witness at `{"m": {"latencyMs": 50}}` (the `"latency"` field is
absent, so the chain moves on to `"latencyMs"`). -/
theorem latency_field_selection_w :
    ("m" : String) ≠ "responses" ∧
    dictGet [("latencyMs", Json.num 50)] "latencyMs" = some (Json.num 50) ∧
    truthy (Json.num 50) = true ∧
    (normalize_response (Json.obj [("m", Json.obj [("latencyMs", Json.num 50)])])).map
      (fun r => r.latency) = [Json.num 50] := by
  refine ⟨by decide, rfl, rfl, ?_⟩
  exact ((latency_field_selection "m" [("latencyMs", Json.num 50)] (by decide)).2.1
    (fun v hv => by cases hv) (Json.num 50) rfl rfl).1

/-- C7, counterexample: the model field is not never-empty — an empty
mapping key is passed through, so `{"": "v"}` yields a record whose model
is the empty string. -/
theorem model_field_cex :
    (normalize_response (Json.obj [("", Json.str "v")])).map (fun r => r.model) =
      [Json.str ""] := rfl

/-- C7, amended: the model field equals the model name taken as read from
the input — the mapping key, or the value of the `"model"` field of a list
element (whatever that value is, possibly empty or non-string) — and falls
back to the sentinel `"unknown"` only when a list element has no `"model"`
field, or to `"result"` for a non-mapping list element. -/
theorem model_field_amended (kvs ikvs : List (String × Json))
    (h : dictGet kvs "responses" = none) :
    (normalize_response (Json.obj kvs)).map (fun r => r.model) =
      kvs.map (fun p => Json.str p.1) ∧
    (normalize_response (Json.arr [Json.obj ikvs])).map (fun r => r.model) =
      [(dictGet ikvs "model").getD (Json.str "unknown")] ∧
    (∀ item, (∀ l, item ≠ Json.obj l) →
      (normalize_response (Json.arr [item])).map (fun r => r.model) =
        [Json.str "result"]) := by
  refine ⟨?_, rfl, ?_⟩
  · rw [normalize_obj kvs h, List.map_map]
    simp [Function.comp, normEntry_model]
  · intro item hitem
    cases item with
    | obj l => exact absurd rfl (hitem l)
    | null => rfl
    | bool b => rfl
    | num n => rfl
    | str s => rfl
    | arr xs => rfl

/-- C7, witness at `M = {"a": 1}` and list element `{"model": "w"}`. -/
theorem model_field_amended_w :
    dictGet [("a", Json.num 1)] "responses" = none ∧
    (normalize_response (Json.arr [Json.obj [("model", Json.str "w")]])).map
      (fun r => r.model) = [Json.str "w"] := by
  refine ⟨rfl, ?_⟩
  exact (model_field_amended [("a", Json.num 1)] [("model", Json.str "w")] rfl).2.1

/-- C8: any input that is neither a mapping nor a list after envelope unwrap
yields exactly one record with the sentinel model `"result"`, the Python
string rendering of the value as response, and latency 0. -/
theorem normalize_scalar (body : Json) (h : isScalar (unwrapEnvelope body) = true) :
    normalize_response body =
      [{ model := Json.str "result",
         response := Json.str (pyStr (unwrapEnvelope body)),
         latency := Json.num 0 }] := by
  rw [normalize_eq_core body]
  cases hu : unwrapEnvelope body with
  | obj kvs => simp [isScalar, hu] at h
  | arr items => simp [isScalar, hu] at h
  | null => rfl
  | bool b => rfl
  | num n => rfl
  | str s => rfl

/-- C8, witness at the spec scenario input `"plain string"`. -/
theorem normalize_scalar_w :
    isScalar (unwrapEnvelope (Json.str "plain string")) = true ∧
    normalize_response (Json.str "plain string") =
      [{ model := Json.str "result",
         response := Json.str (pyStr (unwrapEnvelope (Json.str "plain string"))),
         latency := Json.num 0 }] :=
  ⟨rfl, normalize_scalar (Json.str "plain string") rfl⟩

lemma b64val_b64char : ∀ n < 64, b64val (b64char n) = n := by decide

lemma b64char_ne_pad : ∀ n < 64, b64char n ≠ '=' := by decide

lemma b64_roundtrip : ∀ l : List Nat, (∀ b ∈ l, b < 256) → b64decode (b64encode l) = l
  | [], _ => rfl
  | [a], h => by
    have ha : a < 256 := h a (by simp)
    simp only [b64encode, b64decode]
    rw [if_pos trivial]
    rw [b64val_b64char _ (by omega), b64val_b64char _ (by omega)]
    have h1 : a / 4 * 4 + a % 4 * 16 / 16 = a := by omega
    rw [h1]
  | [a, b], h => by
    have ha : a < 256 := h a (by simp)
    have hb : b < 256 := h b (by simp)
    simp only [b64encode, b64decode]
    rw [if_neg (b64char_ne_pad _ (by omega)), if_pos trivial]
    rw [b64val_b64char _ (by omega), b64val_b64char _ (by omega),
      b64val_b64char _ (by omega)]
    have h1 : a / 4 * 4 + (a % 4 * 16 + b / 16) / 16 = a := by omega
    have h2 : (a % 4 * 16 + b / 16) % 16 * 16 + b % 16 * 4 / 4 = b := by omega
    rw [h1, h2]
  | a :: b :: c :: rest, h => by
    have ha : a < 256 := h a (by simp)
    have hb : b < 256 := h b (by simp)
    have hc : c < 256 := h c (by simp)
    have hrest : ∀ x ∈ rest, x < 256 := fun x hx => h x (by simp [hx])
    simp only [b64encode, b64decode]
    rw [if_neg (b64char_ne_pad _ (by omega)), if_neg (b64char_ne_pad _ (by omega))]
    rw [b64val_b64char _ (by omega), b64val_b64char _ (by omega),
      b64val_b64char _ (by omega), b64val_b64char _ (by omega)]
    have h1 : a / 4 * 4 + (a % 4 * 16 + b / 16) / 16 = a := by omega
    have h2 : (a % 4 * 16 + b / 16) % 16 * 16 + (b % 16 * 4 + c / 64) / 4 = b := by omega
    have h3 : (b % 16 * 4 + c / 64) % 4 * 64 + c % 64 = c := by omega
    rw [h1, h2, h3, b64_roundtrip rest hrest]

/-- C10: `image_to_data_url` returns `"data:<mime>;base64,<payload>"` where
the payload base64-decodes back to exactly the input bytes (a lossless
round trip), and the MIME type is chosen from the lowercased final
dot-separated extension of the filename, defaulting to `"image/png"`. -/
theorem image_to_data_url_spec (data : List Nat) (filename : String)
    (h : ∀ b ∈ data, b < 256) :
    image_to_data_url data filename =
      "data:" ++ mimeFor (extOf filename) ++ ";base64," ++ String.mk (b64encode data) ∧
    b64decode (b64encode data) = data :=
  ⟨rfl, b64_roundtrip data h⟩

/-- C10, witness at bytes `[1, 2, 3, 255]` and filename `"photo.JPG"`. -/
theorem image_to_data_url_spec_w :
    (∀ b ∈ [1, 2, 3, 255], b < 256) ∧
    image_to_data_url [1, 2, 3, 255] "photo.JPG" = "data:image/jpeg;base64,AQID/w==" ∧
    b64decode (b64encode [1, 2, 3, 255]) = [1, 2, 3, 255] := by
  refine ⟨by decide, ?_,
    (image_to_data_url_spec [1, 2, 3, 255] "photo.JPG" (by decide)).2⟩
  exact ((image_to_data_url_spec [1, 2, 3, 255] "photo.JPG" (by decide)).1).trans rfl

/-- C9: a status code outside the 2xx range makes the run handler surface
the status code and the raw body text verbatim, producing no record list
(`normalize_response` is not applied). -/
theorem handle_response_non2xx (statusCode : Nat) (bodyText : String)
    (decoded : Option Json) (h : ¬(200 ≤ statusCode ∧ statusCode < 300)) :
    handle_response statusCode bodyText decoded =
      RunOutcome.failure statusCode bodyText := by
  simp [handle_response, h]

/-- C9, witness at the spec scenario: status 404 with body `"not found"`. -/
theorem handle_response_non2xx_w :
    ¬(200 ≤ 404 ∧ 404 < 300) ∧
    handle_response 404 "not found" none = RunOutcome.failure 404 "not found" :=
  ⟨by decide, handle_response_non2xx 404 "not found" none (by decide)⟩
